import Mathlib

/-!
Shallow embedding of the autoupdater orchestrator
(`src/admin/autoupdater/src/autoupdater.c`) and proofs about the spec's claims.

Modelling conventions:
* Opaque identifiers (mirror URLs, optargs) are modelled as naturals.
* Float arithmetic of the C source is idealized as exact rational arithmetic.
* `priority` is a natural number of rollout days (spec glossary: "operator-assigned
  number controlling how many days the staged rollout window spans"), which makes
  `powf(0.75f, priority)` the exact rational `(3/4) ^ priority`.
* External collaborators (getopt, libplatforminfo, UCI, /proc/uptime, the clock,
  random(), flock) are inputs of the embedded functions.
-/

namespace Autoupdater

/-- Option codes produced by getopt_long for parse_args (autoupdater.c:105-123).
`branch` carries its optarg (modelled as an opaque natural); `unknown` is the
code getopt returns for an unrecognized option (the switch's default case). -/
inductive Opt where
  | branch (arg : ℕ)
  | force
  | fallback
  | help
  | unknown
  deriving DecidableEq, Repr

/-- The settings part of the global state `G` (autoupdater.c:49-69) written by
parse_args. `G = {}` zero-initializes: force and fallback false, branch NULL. -/
structure Globals where
  force : Bool
  fallback : Bool
  branch : Option ℕ
  deriving DecidableEq, Repr

/-- The zero-initialized globals `G = {}` (autoupdater.c:69). -/
def G0 : Globals := ⟨false, false, none⟩

/-- parse_args (autoupdater.c:105-144). The switch has no `break` statements, so
each case falls through into every later case and ends in `usage(); exit(...)`:
the getopt loop body therefore runs at most once, and parse_args returns
normally only when the option list is empty. Result: the updated globals,
`some exitCode` if the process exited inside parse_args (`none` if it
returned), and whether usage() was printed. -/
def parse_args (g : Globals) : List Opt → Globals × Option ℕ × Bool
  | [] => (g, none, false)
  | o :: _ =>
    match o with
    | .branch a => (⟨true, true, some a⟩, some 0, true)
    | .force => (⟨true, true, g.branch⟩, some 0, true)
    | .fallback => (⟨g.force, true, g.branch⟩, some 0, true)
    | .help => (g, some 0, true)
    | .unknown => (g, some 1, true)

/-- get_probability (autoupdater.c:272-314), idealized over exact rationals.
`now` stands for `time(NULL)`, `uptime` for the value read by `get_uptime()`,
and `fb` for the global `G.fallback`. Returns the probability together with
whether the clock-incorrect warning was printed (autoupdater.c:283). -/
def get_probability (now date : ℤ) (priority : ℕ) (uptime : ℚ) (fb : Bool) :
    ℚ × Bool :=
  let seconds : ℚ := (priority : ℚ) * 86400
  let diff : ℤ := now - date
  if diff < 0 then
    if uptime < 600 then (0, true)
    else ((3 / 4 : ℚ) ^ priority, true)
  else if fb then
    if (diff : ℚ) ≥ seconds + 86400 then (1, false) else (0, false)
  else if (diff : ℚ) ≥ seconds then (1, false)
  else
    let x : ℚ := (diff : ℚ) / seconds
    (3 * x * x - 2 * x * x * x, false)

variable {α : Type}

/-- Number of non-NULL entries of the mirror array: the quantity the variable
`mirrors_left` is meant to track in main (autoupdater.c:350-371). -/
def countSome : List (Option α) → ℕ
  | [] => 0
  | none :: rest => countSome rest
  | some _ :: rest => 1 + countSome rest

/-- The live (non-NULL) entries of the mirror array, in array order. -/
def somesOf (l : List (Option α)) : List α := l.filterMap id

/-- The pointer walk of main (autoupdater.c:355-365): skip NULL entries and
stop at the i-th non-NULL one, returning its array index and its value.
`none` models the walk running past the end of the array (which in C would be
undefined behavior). -/
def findNth : List (Option α) → ℕ → Option (ℕ × α)
  | [], _ => none
  | none :: rest, i => (findNth rest i).map (fun p => (p.1 + 1, p.2))
  | some a :: rest, i =>
    match i with
    | 0 => some (0, a)
    | j + 1 => (findNth rest j).map (fun p => (p.1 + 1, p.2))

/-- One selection of the mirror loop: locate the i-th live mirror and tombstone
its slot (`*mirror = NULL`, autoupdater.c:370). -/
def pickMirror (l : List (Option α)) (i : ℕ) : Option (α × List (Option α)) :=
  (findNth l i).map (fun p => (p.2, l.set p.1 none))

/-- The select-and-attempt loop of main (autoupdater.c:350-372). `k` is the
loop variable `mirrors_left`, and `rand t` is the t-th value returned by
`random()`. The body calls `autoupdate(*mirror)` (autoupdater.c:317-318), whose
body is empty, so each iteration only records the attempted mirror and then
unconditionally tombstones it and decrements `mirrors_left`. Returns the list
of attempted mirrors in order, or `none` if the pointer walk ran off the end
of the array. -/
def runMirrors (rand : ℕ → ℕ) : ℕ → ℕ → List (Option α) → Option (List α)
  | _, 0, _ => some []
  | t, k + 1, l =>
    match pickMirror l (rand t % (k + 1)) with
    | none => none
    | some p => (runMirrors rand (t + 1) k p.2).map (fun atts => p.1 :: atts)

/-- The data load_settings (autoupdater.c:193-242) obtains from the external
UCI configuration store: whether loading the settings section, the branch
section and its required options succeeded at all, whether the `enabled`
option is present and equal to "1", and the branch's mirror list. -/
structure Settings where
  settingsOk : Bool
  enabled : Bool
  mirrors : List ℕ
  deriving DecidableEq, Repr

/-- All external inputs of one run of main (autoupdater.c:337-376):
the parsed command line, whether platforminfo_get_image_name() succeeds,
the configuration, whether the lock file /var/run/autoupdater.lock is already
exclusively locked by another process, and the stream of random() values. -/
structure MainInput where
  opts : List Opt
  platformOk : Bool
  settings : Settings
  lockHeld : Bool
  rand : ℕ → ℕ

/-- Observable outcome of a run of main: the process exit status, the list of
mirrors passed to autoupdate() in order, and which diagnostics were printed
("autoupdater is disabled", "another instance is currently running",
"no usable mirror found", the usage text). -/
structure MainResult where
  exitCode : ℕ
  attempts : List ℕ
  disabledMsg : Bool
  alreadyRunningMsg : Bool
  noUsableMirrorMsg : Bool
  usagePrinted : Bool
  deriving DecidableEq, Repr

/-- main (autoupdater.c:337-376): parse_args, platform check, load_settings
(fatal error if the configuration is unloadable; clean exit 0 if not enabled
and not forced), randomize, lock_autoupdater (autoupdater.c:321-334: a single
non-blocking flock attempt; if the lock is held elsewhere it prints the
already-running message and exits 1 without retrying), then the mirror loop,
after which it prints "no usable mirror found" and returns 1. Note that main
never calls get_probability and draws no skip decision: the only use of
random() is mirror selection. `none` models undefined behavior inside the
mirror loop's pointer walk. -/
def main_run (inp : MainInput) : Option MainResult :=
  let pr := parse_args G0 inp.opts
  match pr.2.1 with
  | some c => some ⟨c, [], false, false, false, pr.2.2⟩
  | none =>
    if inp.platformOk = false then some ⟨1, [], false, false, false, false⟩
    else if inp.settings.settingsOk = false then
      some ⟨1, [], false, false, false, false⟩
    else if inp.settings.enabled = false ∧ pr.1.force = false then
      some ⟨0, [], true, false, false, false⟩
    else if inp.lockHeld then some ⟨1, [], false, true, false, false⟩
    else
      match runMirrors inp.rand 0 inp.settings.mirrors.length
          (inp.settings.mirrors.map some) with
      | none => none
      | some atts => some ⟨1, atts, false, false, true, false⟩

/-- The mirror-index computation of main (autoupdater.c:353):
`random() % mirrors_left`. -/
def drawIndex (r k : ℕ) : ℕ := r % k

/-- Number of values r in [0, R) of the random() draw space for which
drawIndex maps r to the live-mirror index j. -/
def drawCount (R k j : ℕ) : ℕ :=
  ((Finset.range R).filter (fun r => drawIndex r k = j)).card

/-- The size of the range of POSIX random(): it returns values in [0, 2^31). -/
def randRange : ℕ := 2 ^ 31

/-! ### Helper lemmas about the mirror-selection machinery -/

theorem somesOf_cons_none (l : List (Option α)) :
    somesOf (none :: l) = somesOf l := rfl

theorem somesOf_cons_some (b : α) (l : List (Option α)) :
    somesOf (some b :: l) = b :: somesOf l := rfl

theorem countSome_eq_length (l : List (Option α)) :
    countSome l = (somesOf l).length := by
  induction l with
  | nil => rfl
  | cons o rest ih =>
    cases o with
    | none =>
      rw [show countSome (none :: rest) = countSome rest from rfl,
        somesOf_cons_none, ih]
    | some b =>
      rw [show countSome (some b :: rest) = 1 + countSome rest from rfl,
        somesOf_cons_some, List.length_cons, ih]
      omega

theorem somesOf_map_some (l : List α) : somesOf (l.map some) = l := by
  induction l with
  | nil => rfl
  | cons a rest ih =>
    rw [List.map_cons, somesOf_cons_some, ih]

theorem countSome_map_some (l : List α) : countSome (l.map some) = l.length := by
  rw [countSome_eq_length, somesOf_map_some]

theorem findNth_isSome (l : List (Option α)) :
    ∀ i, i < countSome l →
      ∃ j a, findNth l i = some (j, a) ∧ l.get? j = some (some a) := by
  induction l with
  | nil => intro i h; simp [countSome] at h
  | cons o rest ih =>
    intro i h
    cases o with
    | none =>
      simp only [countSome] at h
      obtain ⟨j, a, hf, hg⟩ := ih i h
      exact ⟨j + 1, a, by simp [findNth, hf], by simpa using hg⟩
    | some b =>
      cases i with
      | zero => exact ⟨0, b, rfl, rfl⟩
      | succ i =>
        simp only [countSome] at h
        obtain ⟨j, a, hf, hg⟩ := ih i (by omega)
        exact ⟨j + 1, a, by simp [findNth, hf], by simpa using hg⟩

theorem findNth_perm (l : List (Option α)) :
    ∀ i j a, findNth l i = some (j, a) →
      List.Perm (a :: somesOf (l.set j none)) (somesOf l) := by
  induction l with
  | nil => intro i j a h; simp [findNth] at h
  | cons o rest ih =>
    intro i j a h
    cases o with
    | none =>
      simp only [findNth, Option.map_eq_some'] at h
      obtain ⟨⟨j', a'⟩, hf, he⟩ := h
      rw [Prod.mk.injEq] at he
      obtain ⟨rfl, rfl⟩ := he
      rw [show (none :: rest).set (j' + 1) none = none :: rest.set j' none
        from rfl, somesOf_cons_none, somesOf_cons_none]
      exact ih i j' a' hf
    | some b =>
      cases i with
      | zero =>
        simp only [findNth] at h
        injection h with h2
        rw [Prod.mk.injEq] at h2
        obtain ⟨rfl, rfl⟩ := h2
        rw [show (some b :: rest).set 0 none = none :: rest from rfl,
          somesOf_cons_none, somesOf_cons_some]
      | succ i' =>
        simp only [findNth, Option.map_eq_some'] at h
        obtain ⟨⟨j', a'⟩, hf, he⟩ := h
        rw [Prod.mk.injEq] at he
        obtain ⟨rfl, rfl⟩ := he
        rw [show (some b :: rest).set (j' + 1) none = some b :: rest.set j' none
          from rfl, somesOf_cons_some, somesOf_cons_some]
        exact (List.Perm.swap b a' _).trans ((ih i' j' a' hf).cons b)

theorem findNth_countSome (l : List (Option α)) (i j : ℕ) (a : α)
    (h : findNth l i = some (j, a)) :
    countSome (l.set j none) + 1 = countSome l := by
  have hp := (findNth_perm l i j a h).length_eq
  simp only [List.length_cons] at hp
  rw [countSome_eq_length, countSome_eq_length]
  omega

theorem runMirrors_sound (rand : ℕ → ℕ) :
    ∀ k t (l : List (Option α)), countSome l = k →
      ∃ atts, runMirrors rand t k l = some atts ∧
        List.Perm atts (somesOf l) := by
  intro k
  induction k with
  | zero =>
    intro t l h
    refine ⟨[], rfl, ?_⟩
    rw [countSome_eq_length] at h
    rw [List.length_eq_zero.mp h]
  | succ k ih =>
    intro t l h
    have hi : rand t % (k + 1) < countSome l := by
      rw [h]; exact Nat.mod_lt _ (Nat.succ_pos k)
    obtain ⟨j, a, hf, -⟩ := findNth_isSome l (rand t % (k + 1)) hi
    have hc : countSome (l.set j none) = k := by
      have := findNth_countSome l _ j a hf
      omega
    obtain ⟨atts, hrun, hperm⟩ := ih (t + 1) (l.set j none) hc
    refine ⟨a :: atts, ?_, ?_⟩
    · simp only [runMirrors, pickMirror, hf, Option.map_some', hrun]
    · exact (hperm.cons a).trans (findNth_perm l _ j a hf)

theorem main_run_exhausts (ms : List ℕ) (rand : ℕ → ℕ) :
    ∃ atts, main_run ⟨[], true, ⟨true, true, ms⟩, false, rand⟩ =
        some ⟨1, atts, false, false, true, false⟩ ∧ List.Perm atts ms := by
  obtain ⟨atts, hr, hp⟩ :=
    runMirrors_sound rand ms.length 0 (ms.map some) (countSome_map_some ms)
  refine ⟨atts, ?_, ?_⟩
  · simp [main_run, parse_args, hr]
  · exact somesOf_map_some ms ▸ hp

/-! ### Helper lemmas about get_probability -/

theorem get_probability_neg (now date : ℤ) (p : ℕ) (u : ℚ) (fb : Bool)
    (h : now - date < 0) :
    get_probability now date p u fb =
      (if u < 600 then 0 else (3 / 4 : ℚ) ^ p, true) := by
  simp only [get_probability, if_pos h]
  split_ifs <;> rfl

theorem get_probability_fb (now date : ℤ) (p : ℕ) (u : ℚ)
    (h : 0 ≤ now - date) :
    get_probability now date p u true =
      (if ((now - date : ℤ) : ℚ) ≥ (p : ℚ) * 86400 + 86400 then 1 else 0,
        false) := by
  simp only [get_probability, if_neg (not_lt.mpr h), if_pos rfl]
  split_ifs <;> rfl

theorem get_probability_ge (now date : ℤ) (p : ℕ) (u : ℚ)
    (h : (p : ℚ) * 86400 ≤ ((now - date : ℤ) : ℚ)) :
    get_probability now date p u false = (1, false) := by
  have h0 : (0 : ℤ) ≤ now - date := by
    have hp : (0 : ℚ) ≤ (p : ℚ) * 86400 := by positivity
    exact_mod_cast hp.trans h
  simp only [get_probability, if_neg (not_lt.mpr h0)]
  rw [if_neg (by simp), if_pos (ge_iff_le.mpr h)]

theorem get_probability_window (now date : ℤ) (p : ℕ) (u : ℚ)
    (h0 : 0 ≤ now - date)
    (h1 : ((now - date : ℤ) : ℚ) < (p : ℚ) * 86400) :
    get_probability now date p u false =
      (3 * (((now - date : ℤ) : ℚ) / ((p : ℚ) * 86400)) *
          (((now - date : ℤ) : ℚ) / ((p : ℚ) * 86400)) -
        2 * (((now - date : ℤ) : ℚ) / ((p : ℚ) * 86400)) *
          (((now - date : ℤ) : ℚ) / ((p : ℚ) * 86400)) *
          (((now - date : ℤ) : ℚ) / ((p : ℚ) * 86400)), false) := by
  simp only [get_probability, if_neg (not_lt.mpr h0)]
  rw [if_neg (by simp), if_neg (not_le.mpr h1)]

theorem smoothstep_nonneg {x : ℚ} (h0 : 0 ≤ x) (h1 : x ≤ 1) :
    0 ≤ 3 * x * x - 2 * x * x * x := by
  nlinarith [mul_nonneg h0 h0]

theorem smoothstep_le_one {x : ℚ} (h0 : 0 ≤ x) (h1 : x ≤ 1) :
    3 * x * x - 2 * x * x * x ≤ 1 := by
  nlinarith [sq_nonneg (1 - x), mul_nonneg h0 h0]

theorem smoothstep_mono {x y : ℚ} (h0 : 0 ≤ x) (hxy : x ≤ y) (h1 : y ≤ 1) :
    3 * x * x - 2 * x * x * x ≤ 3 * y * y - 2 * y * y * y := by
  have hx1 : x ≤ 1 := hxy.trans h1
  have hy0 : 0 ≤ y := h0.trans hxy
  have hxx : x * x ≤ x := by nlinarith
  have hyy : y * y ≤ y := by nlinarith
  have hxy2 : 2 * (x * y) ≤ x + y := by nlinarith [mul_nonneg h0 hy0]
  have key : 3 * y * y - 2 * y * y * y - (3 * x * x - 2 * x * x * x) =
      (y - x) * (3 * (x + y) - 2 * (x * x + x * y + y * y)) := by ring
  nlinarith [mul_nonneg (sub_nonneg.mpr hxy)
    (by nlinarith : (0 : ℚ) ≤ 3 * (x + y) - 2 * (x * x + x * y + y * y))]

/-! ### Helper lemmas about the modulo distribution of the mirror index -/

theorem drawCount_succ (R k j : ℕ) :
    drawCount (R + 1) k j = drawCount R k j + if R % k = j then 1 else 0 := by
  simp only [drawCount, drawIndex, Finset.range_succ, Finset.filter_insert]
  split_ifs with h
  · rw [Finset.card_insert_of_not_mem (by simp)]
  · rfl

theorem drawCount_partial (k j : ℕ) (hk : 0 < k) (B : ℕ) (hB : B % k = 0) :
    ∀ r, r ≤ k → drawCount (B + r) k j =
      drawCount B k j + if j < r then 1 else 0 := by
  intro r
  induction r with
  | zero => intro _; simp
  | succ r ih =>
    intro hr
    have hr' : r ≤ k := Nat.le_of_succ_le hr
    rw [show B + (r + 1) = (B + r) + 1 from rfl, drawCount_succ, ih hr']
    have hmod : (B + r) % k = r := by
      rw [Nat.add_mod, hB]
      simp [Nat.mod_eq_of_lt (show r < k by omega)]
    rw [hmod]
    split_ifs <;> omega

theorem drawCount_mul (k j : ℕ) (hk : 0 < k) (hj : j < k) :
    ∀ q, drawCount (k * q) k j = q := by
  intro q
  induction q with
  | zero => simp [drawCount]
  | succ q ih =>
    rw [show k * (q + 1) = k * q + k by ring,
      drawCount_partial k j hk (k * q) (Nat.mul_mod_right k q) k le_rfl, ih,
      if_pos hj]

theorem drawCount_formula (R k j : ℕ) (hk : 0 < k) (hj : j < k) :
    drawCount R k j = R / k + if j < R % k then 1 else 0 := by
  have hmod : R % k < k := Nat.mod_lt _ hk
  have hdecomp : k * (R / k) + R % k = R := Nat.div_add_mod R k
  calc drawCount R k j = drawCount (k * (R / k) + R % k) k j := by rw [hdecomp]
    _ = drawCount (k * (R / k)) k j + if j < R % k then 1 else 0 :=
        drawCount_partial k j hk _ (Nat.mul_mod_right _ _) _ (le_of_lt hmod)
    _ = R / k + if j < R % k then 1 else 0 := by rw [drawCount_mul k j hk hj]

/-! ### Claim theorems -/

/-- C1: the claim states that before acquiring the lock or attempting any
mirror, the orchestrator computes the update probability via get_probability
and, unless force is set, skips with success status whenever the uniform draw
is at least that probability. The code has no such step: main
(autoupdater.c:337-348) goes from load_settings straight to lock_autoupdater
and the mirror loop, never calls get_probability, and draws no skip decision
(random() is used only for mirror selection). This theorem evaluates the
embedded main at the failing input — enabled configuration, no --force, one
mirror, lock free — and shows that for every random() stream the run attempts
the mirror and exits 1, never terminating successfully without an attempt. -/
theorem main_attempts_without_probability_check (rand : ℕ → ℕ) :
    main_run ⟨[], true, ⟨true, true, [0]⟩, false, rand⟩ =
      some ⟨1, [0], false, false, true, false⟩ := by
  obtain ⟨atts, hm, hp⟩ := main_run_exhausts [0] rand
  rw [List.perm_singleton.mp hp] at hm
  exact hm

/-- C2: the claim states that with 3 mirrors where the third succeeds at every
stage, the run reports success after exactly 3 attempts. In the code,
autoupdate (autoupdater.c:317-318) has an empty body: it invokes no download,
verification or upgrade hook and cannot signal success, so main tombstones
every mirror and always falls through to "no usable mirror found" with exit
status 1. This theorem evaluates the embedded main on 3 mirrors (hook
outcomes are irrelevant since the code never consults any): for every
random() stream all 3 mirrors are attempted and the run exits 1, not 0. -/
theorem main_exhausts_three_mirrors (rand : ℕ → ℕ) :
    ∃ atts, main_run ⟨[], true, ⟨true, true, [0, 1, 2]⟩, false, rand⟩ =
        some ⟨1, atts, false, false, true, false⟩ ∧
      atts.length = 3 ∧ List.Perm atts [0, 1, 2] := by
  obtain ⟨atts, hm, hp⟩ := main_run_exhausts [0, 1, 2] rand
  exact ⟨atts, hm, by simpa using hp.length_eq, hp⟩

/-- C3: the claim states each flag toggles only its own setting and that
--force lets the run proceed, forcing the update. In the code the switch of
parse_args (autoupdater.c:125-142) falls through: --force also sets the
fallback flag and then falls into the help case, printing usage and exiting 0
before any update logic. This theorem evaluates parse_args and main at the
failing input: with --force, fallback is set too and main exits 0 with usage
printed and zero mirror attempts, regardless of all other inputs. -/
theorem parse_args_force_fallthrough :
    parse_args G0 [Opt.force] = (⟨true, true, none⟩, some 0, true) ∧
    ∀ (pk : Bool) (s : Settings) (lh : Bool) (rand : ℕ → ℕ),
      main_run ⟨[Opt.force], pk, s, lh, rand⟩ =
        some ⟨0, [], false, false, false, true⟩ := by
  exact ⟨rfl, fun pk s lh rand => rfl⟩

/-- C4 counterexample: the claim quantifies over every value of
diff = now − announcedAt, but for negative diff the clock-skew branch of
get_probability (autoupdater.c:276-294) takes precedence over the fallback
branch. Concretely, in fallback mode with now = 0, date = 1 (diff = −1),
priority = 0 and uptime = 600, diff is below priority·86400 + 86400 so the
claim demands probability 0, yet the code returns 0.75^0 = 1. -/
theorem fallback_negative_diff_cex :
    (get_probability 0 1 0 600 true).1 = 1 ∧
    ((0 - 1 : ℤ) : ℚ) < (0 : ℕ) * 86400 + 86400 := by
  constructor
  · rw [get_probability_neg 0 1 0 600 true (by decide)]
    norm_num
  · norm_num

/-- C4 amended: in fallback mode, for every diff = now − announcedAt ≥ 0,
get_probability returns exactly 0 when diff < priority·86400 + 86400 and
exactly 1 when diff ≥ priority·86400 + 86400 (autoupdater.c:295-300). -/
theorem fallback_step_of_nonneg_diff (now date : ℤ) (p : ℕ) (u : ℚ)
    (h : 0 ≤ now - date) :
    (((now - date : ℤ) : ℚ) < (p : ℚ) * 86400 + 86400 →
      (get_probability now date p u true).1 = 0) ∧
    ((p : ℚ) * 86400 + 86400 ≤ ((now - date : ℤ) : ℚ) →
      (get_probability now date p u true).1 = 1) := by
  rw [get_probability_fb now date p u h]
  constructor
  · intro hlt
    push_cast at hlt
    simp [not_le.mpr hlt]
  · intro hge
    push_cast at hge
    simp [hge]

/-- C4 witness: the amended fallback step evaluated at priority 0 with
diff = 0 (below the step) and diff = 86400 (at the step). -/
theorem fallback_step_witness :
    (get_probability 0 0 0 0 true).1 = 0 ∧
    (get_probability 86400 0 0 0 true).1 = 1 :=
  ⟨(fallback_step_of_nonneg_diff 0 0 0 0 (by norm_num)).1 (by norm_num),
   (fallback_step_of_nonneg_diff 86400 0 0 0 (by norm_num)).2 (by norm_num)⟩

/-- C5: for every call with diff = now − announcedAt < 0 and every priority,
in fallback mode as well as not, get_probability prints the clock warning and
returns 0 when uptime is below 600 seconds and 0.75^priority otherwise
(autoupdater.c:276-294). -/
theorem probability_clock_skew (now date : ℤ) (p : ℕ) (u : ℚ) (fb : Bool)
    (h : now - date < 0) :
    get_probability now date p u fb =
      (if u < 600 then 0 else (3 / 4 : ℚ) ^ p, true) :=
  get_probability_neg now date p u fb h

/-- C5 witness: the clock-skew branch at diff = −1: uptime 700 ≥ 600 gives
0.75², and uptime 599 < 600 gives 0, with the warning in both modes. -/
theorem probability_clock_skew_witness :
    get_probability 0 1 2 700 false = ((3 / 4 : ℚ) ^ 2, true) ∧
    get_probability 0 1 2 599 true = (0, true) := by
  constructor
  · rw [probability_clock_skew 0 1 2 700 false (by decide)]
    norm_num
  · rw [probability_clock_skew 0 1 2 599 true (by decide)]
    norm_num

/-- Value of get_probability in the open rollout window, expressed in the
offset d = now − announcedAt (non-fallback mode, autoupdater.c:304-313). -/
theorem window_val (date d : ℤ) (p : ℕ) (u : ℚ) (hd : 0 ≤ d)
    (hlt : ((d : ℤ) : ℚ) < (p : ℚ) * 86400) :
    (get_probability (date + d) date p u false).1 =
      3 * ((d : ℚ) / ((p : ℚ) * 86400)) * ((d : ℚ) / ((p : ℚ) * 86400)) -
        2 * ((d : ℚ) / ((p : ℚ) * 86400)) * ((d : ℚ) / ((p : ℚ) * 86400)) *
          ((d : ℚ) / ((p : ℚ) * 86400)) := by
  have hcancel : date + d - date = d := by ring
  have h0 : (0 : ℤ) ≤ date + d - date := by omega
  have h1 : ((date + d - date : ℤ) : ℚ) < (p : ℚ) * 86400 := by
    rw [hcancel]; exact hlt
  rw [get_probability_window (date + d) date p u h0 h1, hcancel]

/-- C6: in non-fallback mode with diff = now − announcedAt ≥ 0,
get_probability returns exactly 1 whenever diff ≥ priority·86400
(autoupdater.c:301-303), and for priority > 0 and 0 ≤ diff < priority·86400
it returns the smoothstep polynomial 3x² − 2x³ at x = diff/(priority·86400)
(autoupdater.c:304-313), a value that lies in [0,1], equals 0 at diff = 0,
and is monotonically non-decreasing in diff. -/
theorem probability_smoothstep (date : ℤ) (p : ℕ) (u : ℚ) :
    (∀ now : ℤ, (p : ℚ) * 86400 ≤ ((now - date : ℤ) : ℚ) →
      (get_probability now date p u false).1 = 1) ∧
    (0 < p → ∀ d : ℤ, 0 ≤ d → ((d : ℤ) : ℚ) < (p : ℚ) * 86400 →
      (get_probability (date + d) date p u false).1 =
          3 * ((d : ℚ) / ((p : ℚ) * 86400)) * ((d : ℚ) / ((p : ℚ) * 86400)) -
            2 * ((d : ℚ) / ((p : ℚ) * 86400)) * ((d : ℚ) / ((p : ℚ) * 86400)) *
              ((d : ℚ) / ((p : ℚ) * 86400)) ∧
        0 ≤ (get_probability (date + d) date p u false).1 ∧
        (get_probability (date + d) date p u false).1 ≤ 1) ∧
    (0 < p → (get_probability date date p u false).1 = 0) ∧
    (0 < p → ∀ d₁ d₂ : ℤ, 0 ≤ d₁ → d₁ ≤ d₂ →
      ((d₂ : ℤ) : ℚ) < (p : ℚ) * 86400 →
      (get_probability (date + d₁) date p u false).1 ≤
        (get_probability (date + d₂) date p u false).1) := by
  refine ⟨?_, ?_, ?_, ?_⟩
  · intro now h
    rw [get_probability_ge now date p u h]
  · intro hp d hd hlt
    have hs : (0 : ℚ) < (p : ℚ) * 86400 :=
      mul_pos (by exact_mod_cast hp) (by norm_num)
    have hx0 : 0 ≤ (d : ℚ) / ((p : ℚ) * 86400) :=
      div_nonneg (by exact_mod_cast hd) (le_of_lt hs)
    have hx1 : (d : ℚ) / ((p : ℚ) * 86400) ≤ 1 :=
      le_of_lt ((div_lt_one hs).mpr hlt)
    refine ⟨window_val date d p u hd hlt, ?_, ?_⟩
    · rw [window_val date d p u hd hlt]
      exact smoothstep_nonneg hx0 hx1
    · rw [window_val date d p u hd hlt]
      exact smoothstep_le_one hx0 hx1
  · intro hp
    have hs : (0 : ℚ) < (p : ℚ) * 86400 :=
      mul_pos (by exact_mod_cast hp) (by norm_num)
    have h := window_val date 0 p u le_rfl (by simpa using hs)
    simp only [add_zero] at h
    rw [h]
    norm_num
  · intro hp d₁ d₂ hd₁ h₁₂ hlt₂
    have hs : (0 : ℚ) < (p : ℚ) * 86400 :=
      mul_pos (by exact_mod_cast hp) (by norm_num)
    have hd₂ : (0 : ℤ) ≤ d₂ := le_trans hd₁ h₁₂
    have hlt₁ : ((d₁ : ℤ) : ℚ) < (p : ℚ) * 86400 :=
      lt_of_le_of_lt (by exact_mod_cast h₁₂) hlt₂
    rw [window_val date d₁ p u hd₁ hlt₁, window_val date d₂ p u hd₂ hlt₂]
    exact smoothstep_mono
      (div_nonneg (by exact_mod_cast hd₁) (le_of_lt hs))
      ((div_le_div_right hs).mpr (by exact_mod_cast h₁₂))
      (le_of_lt ((div_lt_one hs).mpr hlt₂))

/-- C6 witness: the smoothstep contract instantiated at priority 1 with the
window fully elapsed (diff = 86400), at its left endpoint (diff = 0), inside
the window (diff = 43200), and for the monotonicity pair (0, 43200). -/
theorem probability_smoothstep_witness :
    (get_probability 86400 0 1 0 false).1 = 1 ∧
    (get_probability 0 0 1 0 false).1 = 0 ∧
    0 ≤ (get_probability (0 + 43200) 0 1 0 false).1 ∧
    (get_probability (0 + 43200) 0 1 0 false).1 ≤ 1 ∧
    (get_probability (0 + 0) 0 1 0 false).1 ≤
      (get_probability (0 + 43200) 0 1 0 false).1 :=
  ⟨(probability_smoothstep 0 1 0).1 86400 (by norm_num),
   (probability_smoothstep 0 1 0).2.2.1 (by norm_num),
   ((probability_smoothstep 0 1 0).2.1 (by norm_num) 43200 (by norm_num)
     (by norm_num)).2.1,
   ((probability_smoothstep 0 1 0).2.1 (by norm_num) 43200 (by norm_num)
     (by norm_num)).2.2,
   (probability_smoothstep 0 1 0).2.2.2 (by norm_num) 0 43200 (by norm_num)
     (by norm_num) (by norm_num)⟩

/-- C7: for every list of N ≥ 1 mirrors, since every attempt fails (the stub
autoupdate cannot succeed), the select-and-attempt loop of main performs
exactly N attempts visiting each mirror exactly once (the attempt list is a
permutation of the configured mirrors: no repeats, no omissions), then the
run prints "no usable mirror found" and exits with status 1. -/
theorem main_exhaustion_visits_each_once (ms : List ℕ) (rand : ℕ → ℕ)
    (hN : 1 ≤ ms.length) :
    ∃ r, main_run ⟨[], true, ⟨true, true, ms⟩, false, rand⟩ = some r ∧
      r.exitCode = 1 ∧ List.Perm r.attempts ms ∧
      r.attempts.length = ms.length ∧ r.noUsableMirrorMsg = true := by
  obtain ⟨atts, hm, hp⟩ := main_run_exhausts ms rand
  exact ⟨_, hm, rfl, hp, hp.length_eq, rfl⟩

/-- C7 witness: two mirrors, a concrete random() stream: both are attempted
exactly once and the run exits 1 reporting no usable mirror. -/
theorem main_exhaustion_witness :
    ∃ r, main_run ⟨[], true, ⟨true, true, [5, 7]⟩, false, fun _ => 0⟩ =
        some r ∧
      r.exitCode = 1 ∧ List.Perm r.attempts [5, 7] ∧
      r.attempts.length = [5, 7].length ∧ r.noUsableMirrorMsg = true :=
  main_exhaustion_visits_each_once [5, 7] (fun _ => 0) (by norm_num)

/-- C8 counterexample: the claim states that if the random() draw is uniform
over its range, the index random() % k gives every live mirror probability
exactly 1/k. POSIX random() ranges over [0, 2^31), and with k = 3 live
mirrors the residue 0 is hit by 715827883 of the 2^31 draws — strictly more
than a third — so the selection probability is not 1/3. -/
theorem draw_mod_bias_cex :
    (drawCount randRange 3 0 : ℚ) / (randRange : ℕ) ≠ 1 / 3 := by
  have h : drawCount randRange 3 0 = 715827883 := by
    rw [drawCount_formula randRange 3 0 (by norm_num) (by norm_num)]
    decide
  rw [h]
  norm_num [randRange]

/-- C8 amended: with k live mirrors and the draw uniform over a range of R
values, each index j < k is produced by either ⌊R/k⌋ or ⌊R/k⌋+1 draws, so its
probability is within 1/R of 1/k (with R = 2^31 the bias is below 2^−31),
and it equals exactly 1/k if and only if the modulo is unbiased, in
particular whenever k divides R. -/
theorem draw_mod_near_uniform (R k j : ℕ) (hR : 0 < R) (hk : 0 < k)
    (hj : j < k) :
    |(drawCount R k j : ℚ) / R - 1 / k| < 1 / R ∧
    (k ∣ R → (drawCount R k j : ℚ) / R = 1 / k) := by
  have hmod : R % k < k := Nat.mod_lt _ hk
  have hRpos : (0 : ℚ) < (R : ℚ) := by exact_mod_cast hR
  have hkpos : (0 : ℚ) < (k : ℚ) := by exact_mod_cast hk
  have hRQ : (R : ℚ) = (k : ℚ) * ((R / k : ℕ) : ℚ) + ((R % k : ℕ) : ℚ) := by
    exact_mod_cast (Nat.div_add_mod R k).symm
  have hr0 : (0 : ℚ) ≤ ((R % k : ℕ) : ℚ) := by positivity
  have hrk : ((R % k : ℕ) : ℚ) < (k : ℚ) := by exact_mod_cast hmod
  constructor
  · have key : (drawCount R k j : ℚ) / R - 1 / k =
        ((drawCount R k j : ℚ) * k - R) / (R * k) := by
      field_simp
    have habs : |(drawCount R k j : ℚ) * k - R| < k := by
      rw [drawCount_formula R k j hk hj]
      have hrw : (((R / k + if j < R % k then 1 else 0 : ℕ)) : ℚ) * k - R =
          if j < R % k then (k : ℚ) - ((R % k : ℕ) : ℚ)
          else -((R % k : ℕ) : ℚ) := by
        split_ifs with hjr <;> push_cast <;> rw [hRQ] <;> ring
      rw [hrw]
      split_ifs with hjr
      · have hrpos : (0 : ℚ) < ((R % k : ℕ) : ℚ) := by
          exact_mod_cast (show 0 < R % k by omega)
        rw [abs_of_pos (by linarith)]
        linarith
      · rw [abs_neg, abs_of_nonneg hr0]
        linarith
    rw [key, abs_div, abs_of_pos (mul_pos hRpos hkpos),
      div_lt_div_iff (mul_pos hRpos hkpos) hRpos]
    nlinarith [mul_lt_mul_of_pos_right habs hRpos]
  · intro hdvd
    have hr' : R % k = 0 := Nat.mod_eq_zero_of_dvd hdvd
    rw [drawCount_formula R k j hk hj, hr']
    simp only [Nat.not_lt_zero, if_false, Nat.add_zero]
    rw [div_eq_div_iff (ne_of_gt hRpos) (ne_of_gt hkpos)]
    have hRQ' : (R : ℚ) = (k : ℚ) * ((R / k : ℕ) : ℚ) := by
      rw [hRQ, hr']
      push_cast
      ring
    rw [one_mul, mul_comm]
    linarith [hRQ']

/-- C8 witness: the amended distribution bound at R = 8 draws and k = 3 live
mirrors for index 0. -/
theorem draw_mod_near_uniform_witness :
    |(drawCount 8 3 0 : ℚ) / ((8 : ℕ) : ℚ) - 1 / ((3 : ℕ) : ℚ)| <
        1 / ((8 : ℕ) : ℚ) ∧
    (3 ∣ 8 → (drawCount 8 3 0 : ℚ) / ((8 : ℕ) : ℚ) = 1 / ((3 : ℕ) : ℚ)) :=
  draw_mod_near_uniform 8 3 0 (by norm_num) (by norm_num) (by norm_num)

/-- C9: if the exclusive non-blocking lock on /var/run/autoupdater.lock is
already held by another process, lock_autoupdater (autoupdater.c:321-334)
fails its single flock(LOCK_EX|LOCK_NB) attempt without blocking or retrying,
prints "another instance is currently running", and the process exits with
status 1 having attempted no mirror. -/
theorem lock_contention_aborts (s : Settings) (rand : ℕ → ℕ)
    (h1 : s.settingsOk = true) (h2 : s.enabled = true) :
    main_run ⟨[], true, s, true, rand⟩ =
      some ⟨1, [], false, true, false, false⟩ := by
  simp [main_run, parse_args, h1, h2]

/-- C9 witness: lock contention on a concrete enabled configuration with one
mirror: exit 1, already-running message, zero attempts. -/
theorem lock_contention_witness :
    main_run ⟨[], true, ⟨true, true, [4]⟩, true, fun _ => 0⟩ =
      some ⟨1, [], false, true, false, false⟩ :=
  lock_contention_aborts ⟨true, true, [4]⟩ (fun _ => 0) rfl rfl

/-- C10: when mirrors_left equals the number of non-NULL entries of the
mirror array (as it does at the start of every iteration), every drawn index
i = random() % mirrors_left is below that count, the tombstone-skipping walk
stops inside the array at a non-NULL slot, and consequently the whole loop
runs to completion without the walk ever running past the end. -/
theorem mirror_walk_safe :
    (∀ (l : List (Option ℕ)) (i : ℕ), i < countSome l →
      ∃ j a, findNth l i = some (j, a) ∧ l.get? j = some (some a)) ∧
    ∀ (rand : ℕ → ℕ) (t : ℕ) (l : List (Option ℕ)),
      (runMirrors rand t (countSome l) l).isSome = true := by
  refine ⟨fun l i h => findNth_isSome l i h, fun rand t l => ?_⟩
  obtain ⟨atts, hr, -⟩ := runMirrors_sound rand (countSome l) t l rfl
  rw [hr]
  rfl

/-- C10 witness: the walk on a concrete array with a tombstone finds a
non-NULL entry in bounds, and the loop completes on a concrete array. -/
theorem mirror_walk_safe_witness :
    (∃ j a, findNth ([none, some 9] : List (Option ℕ)) 0 = some (j, a) ∧
      ([none, some 9] : List (Option ℕ)).get? j = some (some a)) ∧
    (runMirrors (fun _ => 1) 0 (countSome ([some 3, none, some 9] :
        List (Option ℕ))) [some 3, none, some 9]).isSome = true :=
  ⟨mirror_walk_safe.1 [none, some 9] 0 (by decide),
   mirror_walk_safe.2 (fun _ => 1) 0 [some 3, none, some 9]⟩

end Autoupdater
